import Mathlib

/-!
Shallow embedding of the netd TetherController (src/server/TetherController.cpp)
and of the DnsProxyListener gethostbyname path (src/unnamed/part_000), together
with theorems settling the frozen behavioural claims about them.

External collaborators (kernel proc files, the dnsmasq pipe, the
InterfaceController setters, getaddrinfo numeric parsing, fork/pipe, the
PID-to-interface association lookup and the socket send primitive) are modelled
as oracle parameters; the control flow, state mutation order and byte-level
framing are translated directly from the C++ source.
-/

/-- IPv6 configuration mode of an interface, as driven by
configureForIPv6Router / configureForIPv6Client in TetherController.cpp. -/
inductive V6Mode where
  | router
  | client
  | unconfigured
deriving Repr, DecidableEq

/-- Error indications corresponding to the errno values the source sets
(EBUSY, ENOENT, EINVAL, EREMOTEIO) plus generic failures that return -1
without a distinguished errno. -/
inductive TErr where
  | eBusy
  | eNoEnt
  | eInval
  | eRemoteIo
  | spawnFail
  | opFail
deriving Repr, DecidableEq

/-- Observable side effects of one TetherController operation: writes to the
forwarding proc files (path, value) and frames written to the daemon pipe
(each frame is written together with its terminating null byte). -/
structure Effects where
  fileWrites : List (String × String)
  pipeWrites : List String
deriving Repr, DecidableEq

/-- State of a TetherController object: the forwarding requester set
(mForwardingRequests), the tethered interface list (mInterfaces), the DNS
forwarder list and netId (mDnsForwarders / mDnsNetId), the daemon handle
(mDaemonPid, with 0 meaning absent, and mDaemonFd, with -1 meaning absent),
and the IPv6 mode most recently applied to each interface (tracking the
InterfaceController calls; newest entry first). -/
structure TetherState where
  forwardingRequests : List String
  interfaces : List String
  modes : List (String × V6Mode)
  dnsForwarders : List String
  dnsNetId : Nat
  daemonPid : Nat
  daemonFd : Int
deriving Repr, DecidableEq

/-- Record that an InterfaceController reconfiguration put the interface in
the given mode (newest entry shadows older ones). -/
def setMode (i : String) (m : V6Mode) (ms : List (String × V6Mode)) :
    List (String × V6Mode) :=
  (i, m) :: ms

/-- Current IPv6 mode of an interface according to the recorded
reconfigurations. -/
def getMode (i : String) (ms : List (String × V6Mode)) : V6Mode :=
  match ms.find? (fun p => p.1 == i) with
  | some p => p.2
  | none => V6Mode.unconfigured

def IPV4_FORWARDING_PROC_FILE : String := "/proc/sys/net/ipv4/ip_forward"
def IPV6_FORWARDING_PROC_FILE : String := "/proc/sys/net/ipv6/conf/all/forwarding"

/-- Insertion into mForwardingRequests, a std::set of strings: inserting an
already-present key leaves the set unchanged. -/
def setInsert (r : String) (s : List String) : List String :=
  if r ∈ s then s else r :: s

/-- Erasure from mForwardingRequests: removes the key if present. -/
def setErase (r : String) (s : List String) : List String :=
  s.erase r

/-- TetherController::setIpFwdEnabled: writes "0" or "1" according to
emptiness of the requester set to both forwarding proc files; the oracle
fwOk gives each writeToFile call's success. Both writes are always
attempted and success is their conjunction. -/
def setIpFwdEnabled (fwOk : String → Bool) (st : TetherState) : Bool × Effects :=
  let value := if st.forwardingRequests.isEmpty then "0" else "1"
  (fwOk IPV4_FORWARDING_PROC_FILE && fwOk IPV6_FORWARDING_PROC_FILE,
   ⟨[(IPV4_FORWARDING_PROC_FILE, value), (IPV6_FORWARDING_PROC_FILE, value)], []⟩)

/-- TetherController::enableForwarding: inserts the requester and calls
setIpFwdEnabled only when the set was empty before the insertion. -/
def enableForwarding (fwOk : String → Bool) (st : TetherState) (r : String) :
    TetherState × Bool × Effects :=
  let trigger := st.forwardingRequests.isEmpty
  let st1 := { st with forwardingRequests := setInsert r st.forwardingRequests }
  if trigger then
    let (ok, eff) := setIpFwdEnabled fwOk st1
    (st1, ok, eff)
  else
    (st1, true, ⟨[], []⟩)

/-- TetherController::disableForwarding: erases the requester and calls
setIpFwdEnabled whenever the set is empty after the erasure. -/
def disableForwarding (fwOk : String → Bool) (st : TetherState) (r : String) :
    TetherState × Bool × Effects :=
  let st1 := { st with forwardingRequests := setErase r st.forwardingRequests }
  if st1.forwardingRequests.isEmpty then
    let (ok, eff) := setIpFwdEnabled fwOk st1
    (st1, ok, eff)
  else
    (st1, true, ⟨[], []⟩)

/-- Hexadecimal digit character (lowercase), as produced by the %x printf
conversion used in the update_dns command. -/
def hexDigitChar (n : Nat) : Char :=
  if n < 10 then Char.ofNat (48 + n) else Char.ofNat (87 + n)

/-- Digit list of the %x conversion, recursing on an explicit fuel bound so
that evaluation is structural (the value argument shrinks by division by
16 each step, so fuel equal to the value always suffices). -/
def hexCharsAux : Nat → Nat → List Char
  | 0, _ => []
  | _ + 1, 0 => []
  | fuel + 1, n + 1 => hexCharsAux fuel ((n + 1) / 16) ++ [hexDigitChar ((n + 1) % 16)]

/-- Digit list of the %x conversion for a positive argument (empty for 0;
the zero case is handled in hexStr). -/
def hexChars (n : Nat) : List Char :=
  hexCharsAux n n

/-- Result of printf "%x" on a Nat: minimal lowercase hex, "0" for zero. -/
def hexStr (n : Nat) : String :=
  if n = 0 then "0" else String.mk (hexChars n)

/-- Modelled from the spec: the Fwmark routing mark (Fwmark.h is not part of
the provided sources). The spec describes it as a bit-packed integer
composed from the 16-bit netId plus fixed flag bits denoting
explicit-selection, VPN-protection, and system permission level; we model
the standard layout: netId in the low 16 bits, explicitlySelected at bit
16, protectedFromVpn at bit 17, and the system permission value 0x3 at
bits 18..19. -/
def fwmarkIntValue (netId : Nat) : Nat :=
  netId % 2 ^ 16 + 2 ^ 16 + 2 ^ 17 + 3 * 2 ^ 18

/-- Initial content of the daemonCmd buffer in setDnsForwarders:
"update_dns|0x%x" with the routing mark. -/
def updateDnsCmd (netId : Nat) : String :=
  "update_dns|0x" ++ hexStr (fwmarkIntValue netId)

/-- The server loop of TetherController::setDnsForwarders. Arguments mirror
the C locals: the remaining servers, the daemonCmd buffer, the running
cmdLen counter and the forwarders accumulated so far (push_back order).
Returns none when a server fails the numeric parse (the EINVAL early
return), otherwise the final command buffer and forwarder list; the break
on cmdLen + 1 >= MAX_CMD_SIZE drops the current server and all that
follow. The parseOk oracle stands for getaddrinfo with AI_NUMERICHOST. -/
def setDnsLoop (parseOk : String → Bool) :
    List String → String → Nat → List String → Option (String × List String)
  | [], cmd, _, fwd => some (cmd, fwd)
  | s :: rest, cmd, cmdLen, fwd =>
    if parseOk s = false then
      none
    else
      let cmdLen' := cmdLen + s.length + 1
      if 1024 ≤ cmdLen' + 1 then
        some (cmd, fwd)
      else
        setDnsLoop parseOk rest (cmd ++ "|" ++ s) cmdLen' (fwd ++ [s])

/-- TetherController::setDnsForwarders. The writeOk oracle gives the result
of the single pipe write (performed only when the daemon fd exists); the
attempted frame is recorded in the effects either way. Mirrors the source
order: clear the list, run the parse/concat loop, store the netId, then
write to the daemon pipe. -/
def setDnsForwarders (parseOk : String → Bool) (writeOk : Bool)
    (st : TetherState) (netId : Nat) (servers : List String) :
    TetherState × Option TErr × Effects :=
  let cmd0 := updateDnsCmd netId
  let st1 := { st with dnsForwarders := [] }
  match setDnsLoop parseOk servers cmd0 cmd0.length [] with
  | none => ({ st1 with dnsForwarders := [] }, some TErr.eInval, ⟨[], []⟩)
  | some (cmd, fwd) =>
    let st2 := { st1 with dnsForwarders := fwd, dnsNetId := netId }
    if st2.daemonFd ≠ -1 then
      if writeOk then
        (st2, none, ⟨[], [cmd]⟩)
      else
        ({ st2 with dnsForwarders := [] }, some TErr.eRemoteIo, ⟨[], [cmd]⟩)
    else
      (st2, none, ⟨[], []⟩)

/-- The interface loop of TetherController::applyDnsInterfaces: returns the
final daemonCmd buffer and the haveInterfaces flag. Same break-on-size
policy as the DNS loop. -/
def ifaceLoop : List String → String → Nat → String × Bool
  | [], cmd, _ => (cmd, false)
  | i :: rest, cmd, cmdLen =>
    let cmdLen' := cmdLen + i.length + 1
    if 1024 ≤ cmdLen' + 1 then
      (cmd, false)
    else
      let r := ifaceLoop rest (cmd ++ "|" ++ i) cmdLen'
      (r.1, true)

/-- TetherController::applyDnsInterfaces: builds the update_ifaces command
from the current interface list and writes it to the daemon pipe only when
the daemon is running and at least one interface was appended; returns
false only on a write failure. -/
def applyDnsInterfaces (writeOk : Bool) (st : TetherState) : Bool × Effects :=
  let r := ifaceLoop st.interfaces "update_ifaces" ("update_ifaces".length)
  if st.daemonFd ≠ -1 ∧ r.2 = true then
    (writeOk, ⟨[], [r.1]⟩)
  else
    (true, ⟨[], []⟩)

/-- TetherController::tetherInterface. The isIf oracle models isIfaceName,
routerOk models success of the configureForIPv6Router sequence (on its
failure the source immediately reverts to client mode), and writeOk the
daemon-pipe write inside applyDnsInterfaces; on a failed push the appended
name is popped back off and the interface reverted to client mode. -/
def tetherInterface (isIf routerOk : String → Bool) (writeOk : Bool)
    (st : TetherState) (iface : String) : TetherState × Option TErr × Effects :=
  if isIf iface = false then
    (st, some TErr.eNoEnt, ⟨[], []⟩)
  else if routerOk iface = false then
    ({ st with modes := setMode iface V6Mode.client st.modes }, some TErr.opFail, ⟨[], []⟩)
  else
    let st1 := { st with interfaces := st.interfaces ++ [iface],
                         modes := setMode iface V6Mode.router st.modes }
    let r := applyDnsInterfaces writeOk st1
    if r.1 = true then
      (st1, none, r.2)
    else
      ({ st1 with interfaces := st1.interfaces.dropLast,
                  modes := setMode iface V6Mode.client st1.modes },
       some TErr.opFail, r.2)

/-- TetherController::untetherInterface: removes the first list entry equal
to the name (ENOENT if absent), reverts the interface to client mode and
re-pushes the interface list. -/
def untetherInterface (writeOk : Bool) (st : TetherState) (iface : String) :
    TetherState × Option TErr × Effects :=
  if iface ∈ st.interfaces then
    let st1 := { st with interfaces := st.interfaces.erase iface,
                         modes := setMode iface V6Mode.client st.modes }
    let r := applyDnsInterfaces writeOk st1
    (st1, if r.1 = true then none else some TErr.opFail, r.2)
  else
    (st, some TErr.eNoEnt, ⟨[], []⟩)

/-- TetherController::startTethering, parent side. pipeRes is the pipe
outcome (read fd, write fd, both nonnegative as returned by pipe), forkRes
the fork outcome in the parent (the child pid). On success the parent
keeps the pid and the write end and pushes the interface list. -/
def startTethering (pipeRes : Option (Nat × Nat)) (forkRes : Option Nat)
    (writeOk : Bool) (st : TetherState) : TetherState × Option TErr × Effects :=
  if st.daemonPid ≠ 0 then
    (st, some TErr.eBusy, ⟨[], []⟩)
  else
    match pipeRes with
    | none => (st, some TErr.spawnFail, ⟨[], []⟩)
    | some p =>
      match forkRes with
      | none => (st, some TErr.spawnFail, ⟨[], []⟩)
      | some pid =>
        let st1 := { st with daemonPid := pid, daemonFd := Int.ofNat p.2 }
        let r := applyDnsInterfaces writeOk st1
        (st1, none, r.2)

/-- TetherController::stopTethering: success no-op when no daemon handle
exists, otherwise kills the child and clears pid and fd. -/
def stopTethering (st : TetherState) : TetherState × Option TErr × Effects :=
  if st.daemonPid = 0 then
    (st, none, ⟨[], []⟩)
  else
    ({ st with daemonPid := 0, daemonFd := -1 }, none, ⟨[], []⟩)

/-- TetherController::isTetheringStarted. -/
def isTetheringStarted (st : TetherState) : Bool :=
  st.daemonPid ≠ 0

/-- The TetherController constructor: zeroed handle fields, then either the
bp-tools forwarding enable or a plain setIpFwdEnabled depending on the
boot mode. -/
def initTetherController (fwOk : String → Bool) (bpTools : Bool) :
    TetherState × Bool × Effects :=
  let st0 : TetherState :=
    { forwardingRequests := [], interfaces := [], modes := [],
      dnsForwarders := [], dnsNetId := 0, daemonPid := 0, daemonFd := -1 }
  if bpTools then
    enableForwarding fwOk st0 "bp-tools"
  else
    let r := setIpFwdEnabled fwOk st0
    (st0, r.1, r.2)

/-- One TetherController operation together with the outcomes of its
external calls, used to state state-invariant preservation. -/
inductive TOp where
  | opStart (pipeRes : Option (Nat × Nat)) (forkRes : Option Nat) (w : Bool)
  | opStop
  | opTether (isIf routerOk : String → Bool) (w : Bool) (i : String)
  | opUntether (w : Bool) (i : String)
  | opSetDns (parseOk : String → Bool) (w : Bool) (netId : Nat) (servers : List String)
  | opEnableFwd (fwOk : String → Bool) (r : String)
  | opDisableFwd (fwOk : String → Bool) (r : String)

/-- State transition of one TetherController operation. -/
def stepOp (st : TetherState) : TOp → TetherState
  | TOp.opStart p f w => (startTethering p f w st).1
  | TOp.opStop => (stopTethering st).1
  | TOp.opTether isIf routerOk w i => (tetherInterface isIf routerOk w st i).1
  | TOp.opUntether w i => (untetherInterface w st i).1
  | TOp.opSetDns parseOk w netId servers => (setDnsForwarders parseOk w st netId servers).1
  | TOp.opEnableFwd fwOk r => (enableForwarding fwOk st r).1
  | TOp.opDisableFwd fwOk r => (disableForwarding fwOk st r).1

/-- Well-formedness of the external outcomes in an operation: fork never
reports child pid 0 to the parent. -/
def opWf : TOp → Prop
  | TOp.opStart _ (some pid) _ => pid ≠ 0
  | _ => True

/-- The daemon-handle invariant: the pid and the pipe fd are set or unset
together. -/
def daemonInv (st : TetherState) : Prop :=
  st.daemonPid = 0 ↔ st.daemonFd = -1

/-- Big-endian 4-byte encoding, as produced by htonl followed by a 4-byte
send (the value is truncated to 32 bits byte-wise, matching htonl on a
wider int). -/
def be32 (n : Nat) : List Nat :=
  [n / 2 ^ 24 % 256, n / 2 ^ 16 % 256, n / 2 ^ 8 % 256, n % 256]

/-- Byte stream of sendLenAndData for a data block d: 4 bytes of big-endian
length followed by the block itself (nothing when the length is zero,
which for us means d is empty). -/
def frame (d : List Nat) : List Nat :=
  be32 d.length ++ d

/-- Hostent-equivalent structure as serialized by sendhostent. A C string is
a byte list; hName is none when h_name is NULL. Each address in hAddrList
is the block of bytes the send reads from the pointer, which is hLength
bytes in a well-formed entry. -/
structure HostEnt where
  hName : Option (List Nat)
  hAliases : List (List Nat)
  hAddrtype : Nat
  hLength : Nat
  hAddrList : List (List Nat)
deriving Repr, DecidableEq

/-- Concatenation of the alias frames emitted by the alias loop of
sendhostent: each alias is sent with length strlen+1, so its bytes plus
the terminating null. -/
def aliasFrames (as : List (List Nat)) : List Nat :=
  match as with
  | [] => []
  | a :: rest => frame (a ++ [0]) ++ aliasFrames rest

/-- Concatenation of the raw address blocks sent by the address loop (each
send writes h_length bytes starting at the address pointer). -/
def addrBytes (addrs : List (List Nat)) : List Nat :=
  match addrs with
  | [] => []
  | a :: rest => a ++ addrBytes rest

/-- Byte stream produced by sendhostent in part_000: the name as a
length-prefixed frame carrying strlen+1 bytes (or a zero-length frame for
a NULL name, where only the 4 length bytes go out), the alias frames, a
terminator frame of length 1 carrying a single null byte, the address
family and the address length as big-endian 32-bit integers, the raw
address blocks, and a final length-1 null-byte terminator frame. -/
def sendhostent (hp : HostEnt) : List Nat :=
  (match hp.hName with
   | some n => frame (n ++ [0])
   | none => frame [])
  ++ aliasFrames hp.hAliases
  ++ frame [0]
  ++ be32 hp.hAddrtype
  ++ be32 hp.hLength
  ++ addrBytes hp.hAddrList
  ++ frame [0]

/-- Host-entry encoding as the claim describes it, differing from the source
only where the claim's words differ: the terminator after the aliases and
the final terminator are zero-length frames. -/
def sendhostentClaimed (hp : HostEnt) : List Nat :=
  (match hp.hName with
   | some n => frame (n ++ [0])
   | none => frame [])
  ++ aliasFrames hp.hAliases
  ++ frame []
  ++ be32 hp.hAddrtype
  ++ be32 hp.hLength
  ++ addrBytes hp.hAddrList
  ++ frame []

/-- Name frame of sendhostent: the strlen+1-byte frame for a present name
and the bare zero length for a NULL name. -/
def nameFrame (nm : Option (List Nat)) : List Nat :=
  match nm with
  | some n => frame (n ++ [0])
  | none => frame []

/-- Reads a big-endian 32-bit integer off the front of a byte stream. -/
def be32Val (s : List Nat) : Option (Nat × List Nat) :=
  match s with
  | b0 :: b1 :: b2 :: b3 :: rest =>
    some (((b0 * 256 + b1) * 256 + b2) * 256 + b3, rest)
  | _ => none

/-- Reads one length-prefixed frame off the front of a byte stream. -/
def readFrame (s : List Nat) : Option (List Nat × List Nat) :=
  match be32Val s with
  | none => none
  | some (len, rest) =>
    if len ≤ rest.length then some (rest.take len, rest.drop len) else none

/-- Decodes the name frame: a zero-length frame is a NULL name, otherwise
the frame must carry a null-terminated string whose terminator is
stripped. -/
def readName (s : List Nat) : Option (Option (List Nat) × List Nat) :=
  match readFrame s with
  | none => none
  | some (d, rest) =>
    if d = [] then some (none, rest)
    else if d.getLast? = some 0 then some (some d.dropLast, rest)
    else none

/-- Decodes alias frames until the length-1 null-byte terminator frame;
each alias frame carries a null-terminated string. Fuel bounds the number
of frames read. -/
def readAliases : Nat → List Nat → Option (List (List Nat) × List Nat)
  | 0, _ => none
  | fuel + 1, s =>
    match readFrame s with
    | none => none
    | some (d, rest) =>
      if d = [0] then some ([], rest)
      else if d.getLast? = some 0 then
        match readAliases fuel rest with
        | some (as, r) => some (d.dropLast :: as, r)
        | none => none
      else none

/-- Splits a byte list into consecutive blocks of k bytes, recursing on an
explicit fuel bound so that evaluation is structural (each step consumes
at least one byte, so fuel equal to the list length always suffices). -/
def chunksAux : Nat → Nat → List Nat → List (List Nat)
  | 0, _, _ => []
  | _ + 1, _, [] => []
  | _ + 1, 0, _ :: _ => []
  | fuel + 1, k + 1, b :: bs =>
    (b :: bs).take (k + 1) :: chunksAux fuel (k + 1) ((b :: bs).drop (k + 1))

/-- Splits a byte list into consecutive blocks of k bytes (k positive and
dividing the length in every use). -/
def chunks (k : Nat) (l : List Nat) : List (List Nat) :=
  chunksAux l.length k l

/-- Decoder for the sendhostent byte stream: reads the name frame, the alias
frames up to their terminator, the two big-endian 32-bit integers, and
takes everything up to the trailing length-1 null-byte terminator frame as
the raw address area, split into h_length-sized addresses. -/
def decodeHostent (s : List Nat) : Option HostEnt :=
  match readName s with
  | none => none
  | some (nm, s1) =>
    match readAliases s1.length s1 with
    | none => none
    | some (als, s2) =>
      match be32Val s2 with
      | none => none
      | some (atv, s3) =>
        match be32Val s3 with
        | none => none
        | some (hl, s4) =>
          if 5 ≤ s4.length ∧ s4.drop (s4.length - 5) = [0, 0, 0, 1, 0] then
            let ab := s4.take (s4.length - 5)
            if hl = 0 then
              if ab = [] then some ⟨nm, als, atv, hl, []⟩ else none
            else if ab.length % hl = 0 then
              some ⟨nm, als, atv, hl, chunks hl ab⟩
            else none
          else none

/-- Interface argument handed to android_gethostbynameforiface by
GetHostByNameHandler::run. The local buffer (char iface[IF_NAMESIZE+1]) is
filled from the PID association lookup only when mIface is NULL; the
conditional (mIface == NULL) ? mIface : iface then selects mIface (i.e.
NULL) in the NULL case and the buffer in the other, so the buffer is read
only when it was never filled (uninitBuf stands for its indeterminate
content). -/
def ghbnIfaceArg (mIface : Option String) (pidLookup : String)
    (uninitBuf : String) : Option String :=
  let iface := if mIface = none then pidLookup else uninitBuf
  if mIface = none then mIface else some iface

/-- Effective interface as the claim (and the sibling handlers at part_000
lines 116 and 410) state it: the explicit interface when given, otherwise
the one looked up from the requesting pid. -/
def claimedIfaceArg (mIface : Option String) (pidLookup : String) :
    Option String :=
  some (mIface.getD pidLookup)

/-- Freshly constructed controller state (all sets empty, no daemon handle),
used as the starting point of concrete witnesses. -/
def baseState : TetherState :=
  { forwardingRequests := [], interfaces := [], modes := [],
    dnsForwarders := [], dnsNetId := 0, daemonPid := 0, daemonFd := -1 }

/-- C1 (amended): over a single enableForwarding or disableForwarding call,
the two forwarding-enable files are written "1" exactly when the requester
set was empty before the enable (the empty-to-non-empty transition), and
"0" exactly when the set is empty after the disable's erase - which covers
both the non-empty-to-empty transition and a disable on an already-empty
set; calls that perform no write return success. -/
theorem tc_forwarding_write_policy (fwOk : String → Bool) (st : TetherState) (r : String) :
    ((enableForwarding fwOk st r).2.2.fileWrites =
        if st.forwardingRequests = [] then
          [(IPV4_FORWARDING_PROC_FILE, "1"), (IPV6_FORWARDING_PROC_FILE, "1")]
        else []) ∧
    (st.forwardingRequests ≠ [] → (enableForwarding fwOk st r).2.1 = true) ∧
    ((disableForwarding fwOk st r).2.2.fileWrites =
        if setErase r st.forwardingRequests = [] then
          [(IPV4_FORWARDING_PROC_FILE, "0"), (IPV6_FORWARDING_PROC_FILE, "0")]
        else []) ∧
    (setErase r st.forwardingRequests ≠ [] → (disableForwarding fwOk st r).2.1 = true) := by
  refine ⟨?_, ?_, ?_, ?_⟩
  · rcases hst : st.forwardingRequests with _ | ⟨a, l⟩ <;>
      simp [enableForwarding, setIpFwdEnabled, setInsert, hst]
  · intro hne
    rcases hst : st.forwardingRequests with _ | ⟨a, l⟩
    · exact absurd hst hne
    · simp [enableForwarding, hst]
  · rcases he : setErase r st.forwardingRequests with _ | ⟨a, l⟩ <;>
      simp [disableForwarding, setIpFwdEnabled, he]
  · intro hne
    rcases he : setErase r st.forwardingRequests with _ | ⟨a, l⟩
    · exact absurd he hne
    · simp [disableForwarding, he]

/-- Witness for tc_forwarding_write_policy: a same-state enable and a
same-state disable on a set holding requester "a" both write nothing and
succeed. -/
theorem tc_forwarding_write_policy_witness :
    (enableForwarding (fun _ => true) { baseState with forwardingRequests := ["a"] } "a").2.1 = true ∧
    (disableForwarding (fun _ => true) { baseState with forwardingRequests := ["a", "b"] } "a").2.1 = true := by
  refine ⟨?_, ?_⟩
  · exact (tc_forwarding_write_policy (fun _ => true)
      { baseState with forwardingRequests := ["a"] } "a").2.1 (by decide)
  · exact (tc_forwarding_write_policy (fun _ => true)
      { baseState with forwardingRequests := ["a", "b"] } "a").2.2.2 (by decide)

/-- C1 counterexample: disableForwarding on an already-empty requester set
leaves the emptiness state unchanged (empty before and after) and still
writes "0" to both forwarding-enable files, contradicting the claim that
same-state calls perform no file write. -/
theorem tc_forwarding_disable_on_empty_writes :
    baseState.forwardingRequests = [] ∧
    (disableForwarding (fun _ => true) baseState "a").1.forwardingRequests = [] ∧
    (disableForwarding (fun _ => true) baseState "a").2.2.fileWrites =
      [(IPV4_FORWARDING_PROC_FILE, "0"), (IPV6_FORWARDING_PROC_FILE, "0")] := by
  decide

/-- C3: the gethostbyname worker passes neither the explicit interface nor
the PID-looked-up interface to the resolution primitive. With no explicit
interface it passes NULL even though the association lookup for the pid
produced "rmnet0", and with an explicit "wlan0" it passes the
never-initialized local buffer; the sibling handlers' selection (modelled
by claimedIfaceArg) shows the intended value in both cases. -/
theorem ghbn_iface_selection_bug :
    ghbnIfaceArg none "rmnet0" "" = none ∧
    claimedIfaceArg none "rmnet0" = some "rmnet0" ∧
    ghbnIfaceArg (some "wlan0") "rmnet0" "uninitialized" = some "uninitialized" ∧
    claimedIfaceArg (some "wlan0") "rmnet0" = some "wlan0" := by
  refine ⟨rfl, rfl, rfl, rfl⟩

/-- C4 counterexample: with the daemon running and the pipe write failing,
setDnsForwarders fails with the I/O error and clears the list, yet the
stored netId has already been replaced by the new value 7 (it was 0), so
list and netId are not replaced atomically together. -/
theorem dns_netid_stored_on_write_failure :
    { baseState with daemonFd := 3 }.dnsNetId = 0 ∧
    (setDnsForwarders (fun _ => true) false { baseState with daemonFd := 3 } 7 ["1.2.3.4"]).2.1 = some TErr.eRemoteIo ∧
    (setDnsForwarders (fun _ => true) false { baseState with daemonFd := 3 } 7 ["1.2.3.4"]).1.dnsNetId = 7 ∧
    (setDnsForwarders (fun _ => true) false { baseState with daemonFd := 3 } 7 ["1.2.3.4"]).1.dnsForwarders = [] := by
  decide

/-- C8: startTethering fails with the busy error, changing nothing, whenever
a daemon handle exists; stopTethering without a handle is a success no-op;
and a successful start installs the forked pid as the handle, so a second
start without an intervening stop hits the busy rejection. -/
theorem start_stop_guards (st : TetherState) (p : Option (Nat × Nat))
    (f : Option Nat) (w : Bool) :
    (st.daemonPid ≠ 0 → startTethering p f w st = (st, some TErr.eBusy, ⟨[], []⟩)) ∧
    (st.daemonPid = 0 → stopTethering st = (st, none, ⟨[], []⟩)) ∧
    (∀ q pid, st.daemonPid = 0 →
      (startTethering (some q) (some pid) w st).1.daemonPid = pid) := by
  refine ⟨?_, ?_, ?_⟩
  · intro h; simp [startTethering, h]
  · intro h; simp [stopTethering, h]
  · intro q pid h; simp [startTethering, h]

/-- Witness for start_stop_guards: starting on a state whose daemon pid is 9
fails busy; stopping the fresh state is a no-op success; a successful
start on the fresh state records pid 5. -/
theorem start_stop_guards_witness :
    startTethering (some (3, 4)) (some 5) true { baseState with daemonPid := 9 } =
      ({ baseState with daemonPid := 9 }, some TErr.eBusy, ⟨[], []⟩) ∧
    stopTethering baseState = (baseState, none, ⟨[], []⟩) ∧
    (startTethering (some (3, 4)) (some 5) true baseState).1.daemonPid = 5 := by
  refine ⟨?_, ?_, ?_⟩
  · exact (start_stop_guards { baseState with daemonPid := 9 } (some (3, 4)) (some 5) true).1 (by decide)
  · exact (start_stop_guards baseState (some (3, 4)) (some 5) true).2.1 (by decide)
  · exact (start_stop_guards baseState (some (3, 4)) (some 5) true).2.2 (3, 4) 5 (by decide)

/-- C10: setDnsForwarders with an empty server list and a succeeding pipe
write succeeds in every state, storing the empty forwarder list and the
new netId; when the daemon is running it writes exactly one frame holding
only the update_dns header with the hex routing mark, and when it is not
running it writes nothing, for any write outcome. -/
theorem set_dns_empty_servers (parseOk : String → Bool) (st : TetherState)
    (netId : Nat) :
    ((setDnsForwarders parseOk true st netId []).2.1 = none ∧
     (setDnsForwarders parseOk true st netId []).1 =
       { st with dnsForwarders := [], dnsNetId := netId }) ∧
    (st.daemonFd ≠ -1 →
      setDnsForwarders parseOk true st netId [] =
        ({ st with dnsForwarders := [], dnsNetId := netId }, none,
         ⟨[], [updateDnsCmd netId]⟩)) ∧
    (st.daemonFd = -1 → ∀ w,
      setDnsForwarders parseOk w st netId [] =
        ({ st with dnsForwarders := [], dnsNetId := netId }, none, ⟨[], []⟩)) := by
  refine ⟨?_, ?_, ?_⟩
  · by_cases hfd : st.daemonFd = -1 <;> simp [setDnsForwarders, setDnsLoop, hfd]
  · intro h
    simp [setDnsForwarders, setDnsLoop, h]
  · intro h w
    simp [setDnsForwarders, setDnsLoop, h]

/-- Witness for set_dns_empty_servers at netId 5, once with the daemon
running (fd 3) and once without a daemon. -/
theorem set_dns_empty_servers_witness :
    setDnsForwarders (fun _ => true) true { baseState with daemonFd := 3 } 5 [] =
      ({ baseState with daemonFd := 3, dnsForwarders := [], dnsNetId := 5 }, none,
       ⟨[], [updateDnsCmd 5]⟩) ∧
    setDnsForwarders (fun _ => true) true baseState 5 [] =
      ({ baseState with dnsForwarders := [], dnsNetId := 5 }, none, ⟨[], []⟩) := by
  constructor
  · have h := (set_dns_empty_servers (fun _ => true) { baseState with daemonFd := 3 } 5).2.1
      (by decide)
    simpa using h
  · have h := (set_dns_empty_servers (fun _ => true) baseState 5).2.2 (by decide) true
    simpa using h

/-- C9: the constructor establishes, and every TetherController operation
preserves, the invariant that the daemon pid and the daemon pipe fd are
set or unset together, given only that fork never hands pid 0 to the
parent; in particular a start that fails at pipe or process creation
leaves no partial handle and stop clears both fields. -/
theorem daemon_handle_invariant :
    (∀ fwOk bp, daemonInv (initTetherController fwOk bp).1) ∧
    (∀ op st, opWf op → daemonInv st → daemonInv (stepOp st op)) := by
  constructor
  · intro fwOk bp
    cases bp <;>
      simp [initTetherController, enableForwarding, setIpFwdEnabled, setInsert, daemonInv]
  · intro op st hwf hinv
    cases op with
    | opStart p f w =>
      by_cases hpid : st.daemonPid = 0
      · rcases p with _ | q
        · simpa [stepOp, startTethering, hpid] using hinv
        · rcases f with _ | pid
          · simpa [stepOp, startTethering, hpid] using hinv
          · have hne : pid ≠ 0 := hwf
            have hst : stepOp st (TOp.opStart (some q) (some pid) w) =
                { st with daemonPid := pid, daemonFd := Int.ofNat q.2 } := by
              simp [stepOp, startTethering, hpid]
            rw [hst]
            simp only [daemonInv]
            constructor
            · intro h; exact absurd h hne
            · intro h
              have h0 : (0 : Int) ≤ Int.ofNat q.2 := Int.ofNat_nonneg _
              omega
      · simpa [stepOp, startTethering, hpid] using hinv
    | opStop =>
      by_cases hpid : st.daemonPid = 0
      · simpa [stepOp, stopTethering, hpid] using hinv
      · simp [stepOp, stopTethering, hpid, daemonInv]
    | opTether isIf routerOk w i =>
      simp only [stepOp, tetherInterface]
      split_ifs <;> simpa [daemonInv] using hinv
    | opUntether w i =>
      simp only [stepOp, untetherInterface]
      split_ifs <;> simpa [daemonInv] using hinv
    | opSetDns parseOk w netId servers =>
      simp only [stepOp, setDnsForwarders]
      rcases h : setDnsLoop parseOk servers (updateDnsCmd netId) ((updateDnsCmd netId).length) []
        with _ | ⟨cmd, fwd⟩
      · simpa [h, daemonInv] using hinv
      · simp only [h]
        split_ifs <;> simpa [daemonInv] using hinv
    | opEnableFwd fwOk r =>
      simp only [stepOp, enableForwarding]
      split_ifs <;> simpa [daemonInv, setIpFwdEnabled] using hinv
    | opDisableFwd fwOk r =>
      simp only [stepOp, disableForwarding]
      split_ifs <;> simpa [daemonInv, setIpFwdEnabled] using hinv

/-- Witness for daemon_handle_invariant: a stop on the fresh state keeps the
invariant. -/
theorem daemon_handle_invariant_witness :
    daemonInv (stepOp baseState TOp.opStop) :=
  daemon_handle_invariant.2 TOp.opStop baseState True.intro (by simp [daemonInv, baseState])

/-- Erasing an element appended at the end of a list removes exactly that
copy when the element occurs nowhere earlier in the list. -/
theorem erase_append_self (l : List String) (x : String) (h : x ∉ l) :
    (l ++ [x]).erase x = l := by
  rw [List.erase_append_right _ h]
  simp

/-- C7 (amended): when the interface is not already in the list, a
successful tetherInterface followed by untetherInterface restores the
interface list exactly and leaves the interface in client-mode IPv6
configuration. (With a duplicate name already present the untether removes
the first copy, not the appended one, and only the multiset is restored.) -/
theorem tether_untether_restores (isIf routerOk : String → Bool) (w1 w2 : Bool)
    (st : TetherState) (x : String) (hnin : x ∉ st.interfaces)
    (hok : (tetherInterface isIf routerOk w1 st x).2.1 = none) :
    (untetherInterface w2 (tetherInterface isIf routerOk w1 st x).1 x).1.interfaces
      = st.interfaces ∧
    getMode x (untetherInterface w2 (tetherInterface isIf routerOk w1 st x).1 x).1.modes
      = V6Mode.client := by
  have ht : (tetherInterface isIf routerOk w1 st x).1 =
      { st with interfaces := st.interfaces ++ [x],
                modes := setMode x V6Mode.router st.modes } := by
    simp only [tetherInterface] at hok ⊢
    split_ifs at hok ⊢ with h1 h2 h3
    rfl
  rw [ht]
  simp [untetherInterface, getMode, setMode, erase_append_self st.interfaces x hnin]

/-- Witness for tether_untether_restores on the fresh state and interface
"rndis0" with all external calls succeeding. -/
theorem tether_untether_restores_witness :
    (untetherInterface true
        (tetherInterface (fun _ => true) (fun _ => true) true baseState "rndis0").1
        "rndis0").1.interfaces = baseState.interfaces ∧
    getMode "rndis0"
      (untetherInterface true
        (tetherInterface (fun _ => true) (fun _ => true) true baseState "rndis0").1
        "rndis0").1.modes = V6Mode.client :=
  tether_untether_restores (fun _ => true) (fun _ => true) true true baseState "rndis0"
    (by decide) (by decide)

/-- C7 counterexample: starting from an interface list that already contains
"rndis0", a successful tether of "rndis0" followed by its untether yields
["wlan0", "rndis0"], not the pre-tether list ["rndis0", "wlan0"]: the
untether erased the first copy, so the exact list state is not restored. -/
theorem tether_untether_duplicate_reorders :
    ({ baseState with interfaces := ["rndis0", "wlan0"] } : TetherState).interfaces
      = ["rndis0", "wlan0"] ∧
    (tetherInterface (fun _ => true) (fun _ => true) true
        { baseState with interfaces := ["rndis0", "wlan0"] } "rndis0").2.1 = none ∧
    (untetherInterface true
        (tetherInterface (fun _ => true) (fun _ => true) true
          { baseState with interfaces := ["rndis0", "wlan0"] } "rndis0").1
        "rndis0").1.interfaces = ["wlan0", "rndis0"] ∧
    (["wlan0", "rndis0"] : List String) ≠ ["rndis0", "wlan0"] := by
  decide

/-- Sum of the per-server contributions (strlen plus one separator byte)
that the setDnsForwarders loop adds to cmdLen. -/
def sumLens (xs : List String) : Nat :=
  xs.foldr (fun s a => s.length + 1 + a) 0

/-- When every server before some failing server parses and the command
stays under the frame limit up to that point, the loop reaches the failing
server and returns the parse-failure outcome. -/
theorem setDnsLoop_parse_failure (parseOk : String → Bool) :
    ∀ (pre : List String) (bad : String) (post : List String) (cmd : String)
      (cmdLen : Nat) (fwd : List String),
      (∀ s ∈ pre, parseOk s = true) → parseOk bad = false →
      cmdLen + sumLens pre + 1 < 1024 →
      setDnsLoop parseOk (pre ++ bad :: post) cmd cmdLen fwd = none := by
  intro pre
  induction pre with
  | nil =>
    intro bad post cmd cmdLen fwd hpre hbad hlen
    simp [setDnsLoop, hbad]
  | cons a l ih =>
    intro bad post cmd cmdLen fwd hpre hbad hlen
    have ha : parseOk a = true := hpre a (by simp)
    have hsum : sumLens (a :: l) = a.length + 1 + sumLens l := rfl
    have hbreak : ¬ (1024 ≤ cmdLen + a.length + 1 + 1) := by
      rw [hsum] at hlen; omega
    simp only [List.cons_append, setDnsLoop]
    rw [if_neg (by simp [ha]), if_neg hbreak]
    exact ih bad post (cmd ++ "|" ++ a) (cmdLen + a.length + 1) (fwd ++ [a])
      (fun s hs => hpre s (by simp [hs])) hbad (by rw [hsum] at hlen; omega)

/-- C5 (amended): when the server list contains a failing address that the
loop actually examines - every earlier server parses and the command built
from the earlier servers stays under the frame limit - setDnsForwarders
fails with the invalid-argument error, leaves the stored forwarder list
empty (earlier parsed servers are discarded, the previous list is not
restored), and leaves the stored netId unchanged. (A failing address
behind the size-limit truncation point is never examined, so such lists
succeed instead; see the counterexample.) -/
theorem dns_parse_failure_clears (parseOk : String → Bool) (writeOk : Bool)
    (st : TetherState) (netId : Nat) (pre : List String) (bad : String)
    (post : List String)
    (hpre : ∀ s ∈ pre, parseOk s = true) (hbad : parseOk bad = false)
    (hfit : (updateDnsCmd netId).length + sumLens pre + 1 < 1024) :
    (setDnsForwarders parseOk writeOk st netId (pre ++ bad :: post)).2.1 = some TErr.eInval ∧
    (setDnsForwarders parseOk writeOk st netId (pre ++ bad :: post)).1.dnsForwarders = [] ∧
    (setDnsForwarders parseOk writeOk st netId (pre ++ bad :: post)).1.dnsNetId = st.dnsNetId := by
  have h := setDnsLoop_parse_failure parseOk pre bad post (updateDnsCmd netId)
    ((updateDnsCmd netId).length) [] hpre hbad hfit
  simp [setDnsForwarders, h]

/-- Witness for dns_parse_failure_clears: the list with "1.2.3.4" followed
by the unparsable "bad" fails with invalid argument, leaving an empty list
and an unchanged netId. -/
theorem dns_parse_failure_clears_witness :
    (setDnsForwarders (fun s => !(s == "bad")) true baseState 0 ["1.2.3.4", "bad"]).2.1 = some TErr.eInval ∧
    (setDnsForwarders (fun s => !(s == "bad")) true baseState 0 ["1.2.3.4", "bad"]).1.dnsForwarders = [] ∧
    (setDnsForwarders (fun s => !(s == "bad")) true baseState 0 ["1.2.3.4", "bad"]).1.dnsNetId = baseState.dnsNetId :=
  dns_parse_failure_clears (fun s => !(s == "bad")) true baseState 0 ["1.2.3.4"] "bad" []
    (by decide) (by decide) (by decide)

/-- A 600-character server string: after one of these the next one exhausts
the 1024-byte frame budget, so anything behind it is never examined. -/
def longAddr : String := String.mk (List.replicate 600 'a')

set_option maxRecDepth 100000 in
/-- C5 counterexample: the server list [longAddr, longAddr, "bad"] contains
the address "bad" that fails numeric parsing, yet setDnsForwarders
succeeds and stores a non-empty list: the size-limit break at the second
long server ends the loop before "bad" is ever parsed. -/
theorem dns_parse_failure_after_truncation_succeeds :
    ((fun s => !(s == "bad")) "bad") = false ∧
    (setDnsForwarders (fun s => !(s == "bad")) true baseState 0 [longAddr, longAddr, "bad"]).2.1 = none ∧
    (setDnsForwarders (fun s => !(s == "bad")) true baseState 0 [longAddr, longAddr, "bad"]).1.dnsForwarders = [longAddr] := by
  decide

/-- Truncation policy as the spec words it: keep elements as long as adding
an element (with its separator) still leaves room for the terminating
null byte inside the fixed 1024-byte frame; drop the first element whose
addition would reach the limit together with everything after it. -/
def truncTakeSpec (cmdLen : Nat) : List String → List String
  | [] => []
  | x :: rest =>
    if 1024 ≤ cmdLen + x.length + 1 + 1 then []
    else x :: truncTakeSpec (cmdLen + x.length + 1) rest

/-- Concatenation of separator-prefixed elements, as the strcat pair in the
source appends them. -/
def sepJoin : List String → String
  | [] => ""
  | x :: rest => "|" ++ x ++ sepJoin rest

/-- The total length the truncated tail adds keeps the command, plus its
null byte, strictly inside the 1024-byte frame. -/
theorem sepJoin_truncTake_bound :
    ∀ (xs : List String) (cmdLen : Nat),
      cmdLen + 1 < 1024 →
      cmdLen + (sepJoin (truncTakeSpec cmdLen xs)).length + 1 < 1024 := by
  intro xs
  induction xs with
  | nil =>
    intro cmdLen h
    simpa [truncTakeSpec, sepJoin] using h
  | cons x rest ih =>
    intro cmdLen h
    simp only [truncTakeSpec]
    by_cases hbr : 1024 ≤ cmdLen + x.length + 1 + 1
    · rw [if_pos hbr]
      simpa [sepJoin] using h
    · rw [if_neg hbr]
      have hx := ih (cmdLen + x.length + 1) (by omega)
      have h1 : ("|" : String).length = 1 := rfl
      simp only [sepJoin, String.length_append, h1] at hx ⊢
      omega

/-- Any command buffer the setDnsForwarders loop returns stays, together
with its null byte, strictly inside the 1024-byte frame, for any parse
oracle and server list. -/
theorem setDnsLoop_cmd_bound (parseOk : String → Bool) :
    ∀ (servers : List String) (cmd : String) (cmdLen : Nat) (fwd : List String)
      (out : String × List String),
      cmdLen = cmd.length → cmdLen + 1 < 1024 →
      setDnsLoop parseOk servers cmd cmdLen fwd = some out →
      out.1.length + 1 < 1024 := by
  intro servers
  induction servers with
  | nil =>
    intro cmd cmdLen fwd out he hb h
    simp only [setDnsLoop, Option.some.injEq] at h
    rw [← h]
    simpa [← he] using hb
  | cons s rest ih =>
    intro cmd cmdLen fwd out he hb h
    simp only [setDnsLoop] at h
    by_cases hp : parseOk s = false
    · rw [if_pos hp] at h
      exact absurd h (by simp)
    · rw [if_neg hp] at h
      by_cases hbr : 1024 ≤ cmdLen + s.length + 1 + 1
      · rw [if_pos hbr] at h
        have : (cmd, fwd) = out := Option.some.inj h
        rw [← this]
        simpa [← he] using hb
      · rw [if_neg hbr] at h
        refine ih (cmd ++ "|" ++ s) (cmdLen + s.length + 1) (fwd ++ [s]) out ?_ (by omega) h
        have h1 : ("|" : String).length = 1 := rfl
        simp [String.length_append, h1, he]
        omega

/-- When every server parses, the loop returns the initial buffer extended
with exactly the truncation-policy prefix of the servers, which is also
the forwarder list it accumulates. -/
theorem setDnsLoop_all_parse (parseOk : String → Bool) :
    ∀ (servers : List String) (cmd : String) (cmdLen : Nat) (fwd : List String),
      (∀ s ∈ servers, parseOk s = true) →
      setDnsLoop parseOk servers cmd cmdLen fwd =
        some (cmd ++ sepJoin (truncTakeSpec cmdLen servers),
              fwd ++ truncTakeSpec cmdLen servers) := by
  intro servers
  induction servers with
  | nil =>
    intro cmd cmdLen fwd hall
    simp [setDnsLoop, truncTakeSpec, sepJoin]
  | cons s rest ih =>
    intro cmd cmdLen fwd hall
    have hs : parseOk s = true := hall s (by simp)
    simp only [setDnsLoop, truncTakeSpec]
    by_cases hbr : 1024 ≤ cmdLen + s.length + 1 + 1
    · rw [if_neg (by simp [hs]), if_pos hbr, if_pos hbr]
      simp [sepJoin]
    · rw [if_neg (by simp [hs]), if_neg hbr, if_neg hbr]
      rw [ih (cmd ++ "|" ++ s) (cmdLen + s.length + 1) (fwd ++ [s])
        (fun a ha => hall a (by simp [ha]))]
      simp [sepJoin, String.append_assoc]

/-- When the whole list fits within the frame limit the truncation keeps
every element. -/
theorem truncTakeSpec_all :
    ∀ (xs : List String) (cmdLen : Nat),
      cmdLen + sumLens xs + 1 < 1024 → truncTakeSpec cmdLen xs = xs := by
  intro xs
  induction xs with
  | nil => intro cmdLen h; rfl
  | cons x rest ih =>
    intro cmdLen h
    have hsum : sumLens (x :: rest) = x.length + 1 + sumLens rest := rfl
    rw [hsum] at h
    simp only [truncTakeSpec]
    rw [if_neg (by omega)]
    rw [ih (cmdLen + x.length + 1) (by omega)]

/-- C4 (amended): classification of setDnsForwarders outcomes. On a parse
failure the stored list is cleared and the stored netId is unchanged; on a
daemon-pipe write failure the stored list is cleared, the call fails with
the I/O error, but the new netId remains stored (the source stores the
netId before attempting the pipe write); on success the new netId is
stored and the stored list holds exactly the forwarders the parse/size
loop accepted - all of the servers whenever every server parses and the
composed command stays within the frame limit. -/
theorem dns_forwarders_update_outcomes (parseOk : String → Bool) (writeOk : Bool)
    (st : TetherState) (netId : Nat) (servers : List String) :
    ((setDnsForwarders parseOk writeOk st netId servers).2.1 = some TErr.eInval →
      (setDnsForwarders parseOk writeOk st netId servers).1.dnsForwarders = [] ∧
      (setDnsForwarders parseOk writeOk st netId servers).1.dnsNetId = st.dnsNetId) ∧
    ((setDnsForwarders parseOk writeOk st netId servers).2.1 = some TErr.eRemoteIo →
      (setDnsForwarders parseOk writeOk st netId servers).1.dnsForwarders = [] ∧
      (setDnsForwarders parseOk writeOk st netId servers).1.dnsNetId = netId) ∧
    ((setDnsForwarders parseOk writeOk st netId servers).2.1 = none →
      (setDnsForwarders parseOk writeOk st netId servers).1.dnsNetId = netId ∧
      (setDnsLoop parseOk servers (updateDnsCmd netId) ((updateDnsCmd netId).length) []).map Prod.snd
        = some (setDnsForwarders parseOk writeOk st netId servers).1.dnsForwarders) ∧
    ((∀ s ∈ servers, parseOk s = true) →
      (updateDnsCmd netId).length + sumLens servers + 1 < 1024 →
      (setDnsForwarders parseOk writeOk st netId servers).2.1 ≠ some TErr.eInval ∧
      ((setDnsForwarders parseOk writeOk st netId servers).2.1 = none →
        (setDnsForwarders parseOk writeOk st netId servers).1.dnsForwarders = servers)) := by
  unfold setDnsForwarders
  rcases h : setDnsLoop parseOk servers (updateDnsCmd netId) ((updateDnsCmd netId).length) []
    with _ | ⟨cmd, fwd⟩
  · refine ⟨by simp [h], by simp [h], by simp [h], ?_⟩
    intro hall hfit
    have hsome := setDnsLoop_all_parse parseOk servers (updateDnsCmd netId)
      ((updateDnsCmd netId).length) [] hall
    rw [h] at hsome
    exact absurd hsome (by simp)
  · have hfwd_all : (∀ s ∈ servers, parseOk s = true) →
        (updateDnsCmd netId).length + sumLens servers + 1 < 1024 → fwd = servers := by
      intro hall hfit
      have hsome := setDnsLoop_all_parse parseOk servers (updateDnsCmd netId)
        ((updateDnsCmd netId).length) [] hall
      rw [h] at hsome
      have hp := Option.some.inj hsome
      have hfwd : fwd = truncTakeSpec ((updateDnsCmd netId).length) servers := by
        have := congrArg Prod.snd hp
        simpa using this
      rw [hfwd, truncTakeSpec_all servers ((updateDnsCmd netId).length) hfit]
    by_cases hfd : st.daemonFd = -1
    · refine ⟨by simp [h, hfd], by simp [h, hfd], by simp [h, hfd], ?_⟩
      intro hall hfit
      exact ⟨by simp [h, hfd], fun _ => by simp [h, hfd, hfwd_all hall hfit]⟩
    · cases writeOk
      · refine ⟨by simp [h, hfd], by simp [h, hfd], by simp [h, hfd], ?_⟩
        intro hall hfit
        exact ⟨by simp [h, hfd], fun hc => by simp [h, hfd] at hc⟩
      · refine ⟨by simp [h, hfd], by simp [h, hfd], by simp [h, hfd], ?_⟩
        intro hall hfit
        exact ⟨by simp [h, hfd], fun _ => by simp [h, hfd, hfwd_all hall hfit]⟩

/-- Witness for dns_forwarders_update_outcomes: at a concrete input the
pipe-write-failure case clears the list while storing netId 7, and the
success case stores the full server list. -/
theorem dns_forwarders_update_outcomes_witness :
    ((setDnsForwarders (fun _ => true) false { baseState with daemonFd := 3 } 7 ["1.2.3.4"]).1.dnsForwarders = [] ∧
     (setDnsForwarders (fun _ => true) false { baseState with daemonFd := 3 } 7 ["1.2.3.4"]).1.dnsNetId = 7) ∧
    ((setDnsForwarders (fun _ => true) true { baseState with daemonFd := 3 } 7 ["1.2.3.4"]).2.1 = none →
      (setDnsForwarders (fun _ => true) true { baseState with daemonFd := 3 } 7 ["1.2.3.4"]).1.dnsForwarders = ["1.2.3.4"]) := by
  constructor
  · exact (dns_forwarders_update_outcomes (fun _ => true) false
      { baseState with daemonFd := 3 } 7 ["1.2.3.4"]).2.1 (by decide)
  · exact ((dns_forwarders_update_outcomes (fun _ => true) true
      { baseState with daemonFd := 3 } 7 ["1.2.3.4"]).2.2.2 (by decide) (by decide)).2

/-- The applyDnsInterfaces loop returns the initial buffer extended with
exactly the truncation-policy prefix of the interface list. -/
theorem ifaceLoop_spec :
    ∀ (ifaces : List String) (cmd : String) (cmdLen : Nat),
      (ifaceLoop ifaces cmd cmdLen).1 = cmd ++ sepJoin (truncTakeSpec cmdLen ifaces) := by
  intro ifaces
  induction ifaces with
  | nil =>
    intro cmd cmdLen
    simp [ifaceLoop, truncTakeSpec, sepJoin]
  | cons i rest ih =>
    intro cmd cmdLen
    simp only [ifaceLoop, truncTakeSpec]
    by_cases hbr : 1024 ≤ cmdLen + i.length + 1 + 1
    · rw [if_pos hbr, if_pos hbr]
      simp [sepJoin]
    · rw [if_neg hbr, if_neg hbr]
      rw [ih (cmd ++ "|" ++ i) (cmdLen + i.length + 1)]
      simp [sepJoin, String.append_assoc]

/-- Bound on the hex digit count: a value below 16^k prints in at most k
hex digits. -/
theorem hexCharsAux_length_le (k : Nat) :
    ∀ (fuel n : Nat), n ≤ fuel → n < 16 ^ k → (hexCharsAux fuel n).length ≤ k := by
  induction k with
  | zero =>
    intro fuel n hle hlt
    have hn : n = 0 := by simpa using Nat.lt_one_iff.mp (by simpa using hlt)
    subst hn
    cases fuel <;> simp [hexCharsAux]
  | succ k ih =>
    intro fuel n hle hlt
    cases n with
    | zero => cases fuel <;> simp [hexCharsAux]
    | succ m =>
      cases fuel with
      | zero => omega
      | succ f =>
        simp only [hexCharsAux, List.length_append, List.length_cons, List.length_nil]
        have hdiv : (m + 1) / 16 < 16 ^ k := by
          rw [Nat.div_lt_iff_lt_mul (by norm_num)]
          calc m + 1 < 16 ^ (k + 1) := hlt
            _ = 16 ^ k * 16 := by rw [pow_succ]
        have hle2 : (m + 1) / 16 ≤ f := by
          have := Nat.div_lt_self (Nat.succ_pos m) (by norm_num : (1 : Nat) < 16)
          omega
        have := ih f ((m + 1) / 16) hle2 hdiv
        omega

/-- The update_dns header (command word, separator, 0x and the hex routing
mark) never exceeds 21 bytes: the mark always fits in five hex digits. -/
theorem updateDnsCmd_length_le (netId : Nat) : (updateDnsCmd netId).length ≤ 21 := by
  have hfw : fwmarkIntValue netId < 16 ^ 5 := by
    have hmod : netId % 2 ^ 16 < 2 ^ 16 := Nat.mod_lt _ (by norm_num)
    simp only [fwmarkIntValue]
    norm_num at hmod ⊢
    omega
  have hx : (hexStr (fwmarkIntValue netId)).length ≤ 5 := by
    rw [hexStr]
    split_ifs with h
    · decide
    · have hb := hexCharsAux_length_le 5 (fwmarkIntValue netId) (fwmarkIntValue netId)
        le_rfl hfw
      have hmk : (String.mk (hexChars (fwmarkIntValue netId))).length
          = (hexCharsAux (fwmarkIntValue netId) (fwmarkIntValue netId)).length := rfl
      omega
  rw [updateDnsCmd, String.length_append]
  have h13 : ("update_dns|0x" : String).length = 13 := rfl
  omega

/-- C6: both update-protocol frames, including the terminating null byte,
never exceed the fixed 1024-byte frame size; the encoders append exactly
the maximal prefix of elements whose addition keeps the frame (with its
null byte) under the limit, silently dropping the first element that
would reach it and everything after; and with all servers parseable the
truncation never produces the invalid-argument error. -/
theorem update_frames_bounded (parseOk : String → Bool) (netId : Nat)
    (servers ifaces : List String) (st : TetherState) (writeOk : Bool) :
    (∀ out, setDnsLoop parseOk servers (updateDnsCmd netId) ((updateDnsCmd netId).length) [] = some out →
        out.1.length + 1 ≤ 1024) ∧
    (ifaceLoop ifaces "update_ifaces" ("update_ifaces".length)).1.length + 1 ≤ 1024 ∧
    ((∀ s ∈ servers, parseOk s = true) →
      setDnsLoop parseOk servers (updateDnsCmd netId) ((updateDnsCmd netId).length) [] =
        some (updateDnsCmd netId ++ sepJoin (truncTakeSpec ((updateDnsCmd netId).length) servers),
              truncTakeSpec ((updateDnsCmd netId).length) servers)) ∧
    ((ifaceLoop ifaces "update_ifaces" ("update_ifaces".length)).1 =
      "update_ifaces" ++ sepJoin (truncTakeSpec ("update_ifaces".length) ifaces)) ∧
    ((∀ s ∈ servers, parseOk s = true) →
      (setDnsForwarders parseOk writeOk st netId servers).2.1 ≠ some TErr.eInval) := by
  have hhdr := updateDnsCmd_length_le netId
  refine ⟨?_, ?_, ?_, ?_, ?_⟩
  · intro out hout
    have := setDnsLoop_cmd_bound parseOk servers (updateDnsCmd netId)
      ((updateDnsCmd netId).length) [] out rfl (by omega) hout
    omega
  · have h1 := ifaceLoop_spec ifaces "update_ifaces" ("update_ifaces".length)
    have h13 : ("update_ifaces" : String).length = 13 := rfl
    have h2 := sepJoin_truncTake_bound ifaces ("update_ifaces".length) (by omega)
    rw [h1, String.length_append]
    omega
  · intro hall
    have h := setDnsLoop_all_parse parseOk servers (updateDnsCmd netId)
      ((updateDnsCmd netId).length) [] hall
    simpa using h
  · exact ifaceLoop_spec ifaces "update_ifaces" ("update_ifaces".length)
  · intro hall
    have h := setDnsLoop_all_parse parseOk servers (updateDnsCmd netId)
      ((updateDnsCmd netId).length) [] hall
    simp only [setDnsForwarders]
    rw [show setDnsLoop parseOk servers (updateDnsCmd netId) ((updateDnsCmd netId).length) []
        = some (updateDnsCmd netId ++ sepJoin (truncTakeSpec ((updateDnsCmd netId).length) servers),
                truncTakeSpec ((updateDnsCmd netId).length) servers) from by simpa using h]
    split_ifs <;> simp

/-- Witness for update_frames_bounded: with a single parseable server the
loop returns the header extended by the truncation prefix, and the
single-interface frame obeys the size bound. -/
theorem update_frames_bounded_witness :
    setDnsLoop (fun _ => true) ["8.8.8.8"] (updateDnsCmd 0) ((updateDnsCmd 0).length) [] =
      some (updateDnsCmd 0 ++ sepJoin (truncTakeSpec ((updateDnsCmd 0).length) ["8.8.8.8"]),
            truncTakeSpec ((updateDnsCmd 0).length) ["8.8.8.8"]) ∧
    (ifaceLoop ["rndis0"] "update_ifaces" ("update_ifaces".length)).1.length + 1 ≤ 1024 := by
  have h := update_frames_bounded (fun _ => true) 0 ["8.8.8.8"] ["rndis0"] baseState true
  exact ⟨h.2.2.1 (fun s _ => rfl), h.2.1⟩

/-- Reading back a big-endian 32-bit encoding recovers the value and leaves
the rest of the stream. -/
theorem be32Val_be32 (n : Nat) (r : List Nat) (h : n < 2 ^ 32) :
    be32Val (be32 n ++ r) = some (n, r) := by
  simp only [be32, be32Val, List.cons_append, List.nil_append, Option.some.injEq,
    Prod.mk.injEq, and_true]
  omega

/-- Reading back an encoded frame recovers its data block and leaves the
rest of the stream. -/
theorem readFrame_frame (d r : List Nat) (h : d.length < 2 ^ 32) :
    readFrame (frame d ++ r) = some (d, r) := by
  have hb := be32Val_be32 d.length (d ++ r) h
  simp only [frame, List.append_assoc] at hb ⊢
  simp only [readFrame, hb]
  rw [if_pos (by simp)]
  rw [List.take_left, List.drop_left]

/-- Decoding the name frame produced by sendhostent recovers the optional
name. -/
theorem readName_encode (nm : Option (List Nat)) (tail : List Nat)
    (h : ∀ n, nm = some n → n.length + 1 < 2 ^ 32) :
    readName (nameFrame nm ++ tail) = some (nm, tail) := by
  cases nm with
  | none =>
    have h0 : ([] : List Nat).length < 2 ^ 32 := by norm_num
    simp only [nameFrame, readName, readFrame_frame [] tail h0]
    simp
  | some n =>
    have hlen : (n ++ [0]).length < 2 ^ 32 := by
      have := h n rfl
      simp only [List.length_append, List.length_cons, List.length_nil]
      omega
    simp only [nameFrame, readName, readFrame_frame (n ++ [0]) tail hlen]
    rw [if_neg (by simp)]
    rw [if_pos (by simp [List.getLast?_concat])]
    simp [List.dropLast_concat]

/-- Decoding the alias frames produced by sendhostent, up to the length-1
null-byte terminator frame, recovers the alias list whenever no alias is
the empty string and the fuel covers the alias count. -/
theorem readAliases_encode :
    ∀ (as : List (List Nat)) (fuel : Nat) (tail : List Nat),
      (∀ a ∈ as, a ≠ [] ∧ a.length + 1 < 2 ^ 32) →
      as.length + 1 ≤ fuel →
      readAliases fuel (aliasFrames as ++ (frame [0] ++ tail)) = some (as, tail) := by
  intro as
  induction as with
  | nil =>
    intro fuel tail hwf hfuel
    cases fuel with
    | zero => omega
    | succ f =>
      have h1 : ([0] : List Nat).length < 2 ^ 32 := by norm_num
      simp only [aliasFrames, List.nil_append, readAliases, readFrame_frame [0] tail h1]
      simp
  | cons a rest ih =>
    intro fuel tail hwf hfuel
    cases fuel with
    | zero => simp at hfuel
    | succ f =>
      obtain ⟨hne, hlen⟩ := hwf a (by simp)
      have hl : (a ++ [0]).length < 2 ^ 32 := by
        simp only [List.length_append, List.length_cons, List.length_nil]
        omega
      simp only [aliasFrames, List.append_assoc, readAliases,
        readFrame_frame (a ++ [0]) _ hl]
      rw [if_neg ?hne0]
      case hne0 =>
        intro hcontra
        have hlen0 : a.length = 0 := by
          have := congrArg List.length hcontra
          simpa using this
        exact hne (List.eq_nil_of_length_eq_zero hlen0)
      rw [if_pos (by simp [List.getLast?_concat])]
      rw [ih f tail (fun b hb => hwf b (by simp [hb])) (by simp at hfuel ⊢; omega)]
      simp [List.dropLast_concat]

/-- Each alias frame occupies at least one byte, so the alias area is at
least as long as the alias count. -/
theorem aliasFrames_length_ge (as : List (List Nat)) :
    as.length ≤ (aliasFrames as).length := by
  induction as with
  | nil => simp [aliasFrames]
  | cons a rest ih =>
    have hf : (frame (a ++ [0])).length = 4 + (a.length + 1) := by
      simp [frame, be32, List.length_append]
      omega
    simp only [aliasFrames, List.length_append, List.length_cons, hf]
    omega

/-- Total length of the raw address area when every address block has the
fixed address length. -/
theorem addrBytes_length (k : Nat) :
    ∀ (addrs : List (List Nat)), (∀ a ∈ addrs, a.length = k) →
      (addrBytes addrs).length = addrs.length * k := by
  intro addrs
  induction addrs with
  | nil => intro h; simp [addrBytes]
  | cons a rest ih =>
    intro h
    have ha : a.length = k := h a (by simp)
    simp only [addrBytes, List.length_append, List.length_cons,
      ih (fun b hb => h b (by simp [hb])), ha]
    ring

/-- Splitting the concatenated address area back into fixed-size blocks
recovers the address list. -/
theorem chunksAux_addrBytes :
    ∀ (addrs : List (List Nat)) (k fuel : Nat), 0 < k →
      (∀ a ∈ addrs, a.length = k) →
      (addrBytes addrs).length ≤ fuel →
      chunksAux fuel k (addrBytes addrs) = addrs := by
  intro addrs
  induction addrs with
  | nil =>
    intro k fuel hk h hfuel
    cases fuel <;> simp [addrBytes, chunksAux]
  | cons a rest ih =>
    intro k fuel hk h hfuel
    have ha : a.length = k := h a (by simp)
    obtain ⟨k', rfl⟩ : ∃ k', k = k' + 1 := ⟨k - 1, by omega⟩
    cases a with
    | nil => simp at ha
    | cons b bs =>
      have ha' : bs.length + 1 = k' + 1 := by simpa using ha
      cases fuel with
      | zero =>
        exfalso
        simp [addrBytes, List.length_append] at hfuel
      | succ f =>
        simp only [addrBytes, List.cons_append, chunksAux]
        have htake : (b :: (bs ++ addrBytes rest)).take (k' + 1) = b :: bs := by
          have ht := List.take_left (b :: bs) (addrBytes rest)
          simpa [List.cons_append, ha'] using ht
        have hdrop : (b :: (bs ++ addrBytes rest)).drop (k' + 1) = addrBytes rest := by
          have hd := List.drop_left (b :: bs) (addrBytes rest)
          simpa [List.cons_append, ha'] using hd
        simp only [List.append_eq]
        rw [htake, hdrop]
        have hrest : (addrBytes rest).length ≤ f := by
          simp only [addrBytes, List.cons_append, List.length_cons,
            List.length_append] at hfuel
          omega
        rw [ih (k' + 1) f hk (fun c hc => h c (by simp [hc])) hrest]

/-- C2 (amended): the sendhostent byte stream consists of the length-prefixed
canonical name (or an empty frame when absent), each alias as a
length-prefixed frame, a terminator frame of length one carrying a single
null byte, the address family and address length as big-endian 32-bit
integers, the raw fixed-length address blocks, and a final length-one
null-byte terminator frame; decoding this stream reproduces the original
hostent-equivalent structure exactly for any entry whose aliases are
non-empty strings, whose frame lengths fit in 32 bits, whose address
blocks all have the stated address length, and whose address length is
positive whenever addresses are present. -/
theorem hostent_roundtrip (hp : HostEnt)
    (hname : ∀ n, hp.hName = some n → n.length + 1 < 2 ^ 32)
    (hal : ∀ a ∈ hp.hAliases, a ≠ [] ∧ a.length + 1 < 2 ^ 32)
    (haddr : ∀ a ∈ hp.hAddrList, a.length = hp.hLength)
    (hpos : hp.hAddrList = [] ∨ 0 < hp.hLength)
    (hat : hp.hAddrtype < 2 ^ 32) (hhl : hp.hLength < 2 ^ 32) :
    decodeHostent (sendhostent hp) = some hp := by
  obtain ⟨nm, als, atv, hl, addrs⟩ := hp
  simp only at hname hal haddr hpos hat hhl
  have hS : sendhostent ⟨nm, als, atv, hl, addrs⟩ =
      nameFrame nm ++
        (aliasFrames als ++ (frame [0] ++
          (be32 atv ++ (be32 hl ++ (addrBytes addrs ++ frame [0]))))) := by
    cases nm <;> simp [sendhostent, nameFrame, List.append_assoc]
  rw [hS]
  have hname' := readName_encode nm
    (aliasFrames als ++ (frame [0] ++
      (be32 atv ++ (be32 hl ++ (addrBytes addrs ++ frame [0]))))) hname
  have hfuel : als.length + 1 ≤
      (aliasFrames als ++ (frame [0] ++
        (be32 atv ++ (be32 hl ++ (addrBytes addrs ++ frame [0]))))).length := by
    have hge := aliasFrames_length_ge als
    have hfl : (frame [0] : List Nat).length = 5 := rfl
    simp only [List.length_append, hfl]
    omega
  have hals := readAliases_encode als
    (aliasFrames als ++ (frame [0] ++
      (be32 atv ++ (be32 hl ++ (addrBytes addrs ++ frame [0]))))).length
    (be32 atv ++ (be32 hl ++ (addrBytes addrs ++ frame [0]))) hal hfuel
  have hatv := be32Val_be32 atv (be32 hl ++ (addrBytes addrs ++ frame [0])) hat
  have hhlv := be32Val_be32 hl (addrBytes addrs ++ frame [0]) hhl
  simp only [decodeHostent, hname', hals, hatv, hhlv]
  have hf0 : (frame [0] : List Nat) = [0, 0, 0, 1, 0] := rfl
  have hs4len : (addrBytes addrs ++ frame [0]).length = (addrBytes addrs).length + 5 := by
    rw [List.length_append, hf0]
    rfl
  have hsub : (addrBytes addrs ++ frame [0]).length - 5 = (addrBytes addrs).length := by
    omega
  have hdropT : (addrBytes addrs ++ frame [0]).drop
      ((addrBytes addrs ++ frame [0]).length - 5) = [0, 0, 0, 1, 0] := by
    rw [hsub]
    rw [show (addrBytes addrs).length = (addrBytes addrs).length from rfl]
    rw [List.drop_left]
    exact hf0
  have htakeT : (addrBytes addrs ++ frame [0]).take
      ((addrBytes addrs ++ frame [0]).length - 5) = addrBytes addrs := by
    rw [hsub, List.take_left]
  rw [if_pos ⟨by omega, hdropT⟩]
  simp only [htakeT]
  rcases hl with _ | hl'
  · have haddr0 : addrs = [] := by
      rcases hpos with h | h
      · exact h
      · exact (Nat.lt_irrefl 0 h).elim
    subst haddr0
    simp [addrBytes]
  · rw [if_neg (by omega)]
    have hablen : (addrBytes addrs).length = addrs.length * (hl' + 1) :=
      addrBytes_length (hl' + 1) addrs haddr
    rw [if_pos (by rw [hablen]; exact Nat.mul_mod_left _ _)]
    have hch : chunks (hl' + 1) (addrBytes addrs) = addrs := by
      rw [chunks]
      exact chunksAux_addrBytes addrs (hl' + 1) (addrBytes addrs).length
        (Nat.succ_pos hl') haddr le_rfl
    rw [hch]

/-- Witness for hostent_roundtrip: a host entry with the name "host", one
alias "al", address family 2, address length 4 and two 4-byte addresses
decodes back exactly from its encoding. -/
theorem hostent_roundtrip_witness :
    decodeHostent (sendhostent ⟨some [104, 111, 115, 116], [[97, 108]], 2, 4,
        [[192, 168, 0, 1], [10, 0, 0, 1]]⟩) =
      some ⟨some [104, 111, 115, 116], [[97, 108]], 2, 4,
        [[192, 168, 0, 1], [10, 0, 0, 1]]⟩ :=
  hostent_roundtrip ⟨some [104, 111, 115, 116], [[97, 108]], 2, 4,
      [[192, 168, 0, 1], [10, 0, 0, 1]]⟩
    (fun n hn => by injection hn with h; subst h; decide)
    (by decide) (by decide) (by decide) (by decide) (by decide)

/-- C2 counterexample: in the encoded stream of a host entry with canonical
name "a", no aliases and one 4-byte address, the terminator after the
aliases is the frame 0,0,0,1,0 - four length bytes announcing one data
byte, then a null byte - not a zero-length frame, and likewise the final
terminator; hence the stream differs from the encoding the claim
describes. -/
theorem hostent_terminator_not_zero_length :
    sendhostent ⟨some [97], [], 2, 4, [[1, 2, 3, 4]]⟩ =
      [0, 0, 0, 2, 97, 0,
       0, 0, 0, 1, 0,
       0, 0, 0, 2, 0, 0, 0, 4,
       1, 2, 3, 4,
       0, 0, 0, 1, 0] ∧
    sendhostent ⟨some [97], [], 2, 4, [[1, 2, 3, 4]]⟩ ≠
      sendhostentClaimed ⟨some [97], [], 2, 4, [[1, 2, 3, 4]]⟩ := by
  decide
